import Mathlib

/-!
Verification of the in-process telemetry runtime (metrics registry,
structured logger, distributed tracer) of the `ci-cd-observability-demo`
repository.  The Python sources under `observability/` are shallowly
embedded: machine floats used as timestamps and observation values are
modelled as rationals, Python `None`-able fields as `Option`, Python
dictionaries as association lists with in-place update, exceptions as
`Option`/`Except` results, and the process-wide mutable objects as
explicit state records threaded through the operations.
-/

/-- Model of Python `str.split(sep)` for a one-character separator, on the
character list of the string: splits at every occurrence of the separator,
keeping empty segments, and yields `[[]]` on the empty string (Python:
`"".split(":") == [""]`). -/
def pySplitChars (sep : Char) : List Char → List (List Char)
  | [] => [[]]
  | c :: rest =>
    let r := pySplitChars sep rest
    if c = sep then [] :: r
    else
      match r with
      | h :: t => (c :: h) :: t
      | [] => [[c]]

/-- Splitting a string: `pySplitChars` on the data, each segment repacked. -/
def pySplitStr (sep : Char) (s : String) : List String :=
  (pySplitChars sep s.data).map String.mk

/-- Embedding of `SpanContext` (observability/tracer.py): the identity
triple of a span. -/
structure SpanContext where
  trace_id : String
  span_id : String
  parent_span_id : Option String := none
deriving DecidableEq

/-- Embedding of `SpanContext.to_header`: the propagation header string
`"{trace_id}:{span_id}:{parent_span_id or mempty}"` (a `None` parent and an
empty-string parent both print as the empty third segment). -/
def SpanContext.to_header (c : SpanContext) : String :=
  c.trace_id ++ ":" ++ c.span_id ++ ":" ++ c.parent_span_id.getD ""

/-- Embedding of `SpanContext.from_header`: split on `:`; `none` models the
`IndexError` raised when fewer than two segments exist; a missing or empty
third segment yields no parent. -/
def SpanContext.from_header (header : String) : Option SpanContext :=
  match pySplitStr ':' header with
  | t :: s :: rest =>
    some { trace_id := t
           span_id := s
           parent_span_id :=
             match rest with
             | [] => none
             | p :: _ => if p = "" then none else some p }
  | _ => none

theorem pySplitChars_of_not_mem {sep : Char} :
    ∀ {l : List Char}, sep ∉ l → pySplitChars sep l = [l]
  | [], _ => rfl
  | c :: rest, h => by
    have hc : ¬ c = sep := fun hcs => h (hcs ▸ List.mem_cons_self c rest)
    have hr : sep ∉ rest := fun hm => h (List.mem_cons_of_mem c hm)
    simp [pySplitChars, hc, pySplitChars_of_not_mem hr]

theorem pySplitChars_append_sep {sep : Char} :
    ∀ {l : List Char}, sep ∉ l → ∀ r : List Char,
      pySplitChars sep (l ++ sep :: r) = l :: pySplitChars sep r
  | [], _, r => by simp [pySplitChars]
  | c :: rest, h, r => by
    have hc : ¬ c = sep := fun hcs => h (hcs ▸ List.mem_cons_self c rest)
    have hr : sep ∉ rest := fun hm => h (List.mem_cons_of_mem c hm)
    have ih := pySplitChars_append_sep hr r
    simp only [List.cons_append, pySplitChars, hc, if_false]
    rw [List.append_eq, ih]

theorem pySplitStr_header (t s p : String)
    (ht : (':' : Char) ∉ t.data) (hs : (':' : Char) ∉ s.data)
    (hp : (':' : Char) ∉ p.data) :
    pySplitStr ':' (t ++ ":" ++ s ++ ":" ++ p) = [t, s, p] := by
  have hdata : (t ++ ":" ++ s ++ ":" ++ p).data
      = t.data ++ ':' :: (s.data ++ ':' :: p.data) := by
    simp only [String.data_append]
    simp [List.append_assoc]
  unfold pySplitStr
  rw [hdata, pySplitChars_append_sep ht, pySplitChars_append_sep hs,
    pySplitChars_of_not_mem hp]
  rfl

theorem pySplitStr_single (h : String) (hno : (':' : Char) ∉ h.data) :
    pySplitStr ':' h = [h] := by
  unfold pySplitStr
  rw [pySplitChars_of_not_mem hno]
  rfl

theorem pySplitStr_pair (a b : String)
    (ha : (':' : Char) ∉ a.data) (hb : (':' : Char) ∉ b.data) :
    pySplitStr ':' (a ++ ":" ++ b) = [a, b] := by
  have hdata : (a ++ ":" ++ b).data = a.data ++ ':' :: b.data := by
    simp [String.data_append]
  unfold pySplitStr
  rw [hdata, pySplitChars_append_sep ha, pySplitChars_of_not_mem hb]
  rfl

example : pySplitStr ':' "a:b:" = ["a", "b", ""] := by decide
example : pySplitStr ':' "" = [""] := by decide
example : pySplitStr ':' "abc" = ["abc"] := by decide
example : SpanContext.from_header "t1:s1:p1" =
    some ⟨"t1", "s1", some "p1"⟩ := by decide
example : SpanContext.from_header "t1:s1:" = some ⟨"t1", "s1", none⟩ := by decide
example : SpanContext.from_header "abc" = none := by decide
example : SpanContext.to_header ⟨"t1", "s1", none⟩ = "t1:s1:" := by decide

/-- Claim C3 (amended): for every SpanContext whose trace_id and span_id are
non-empty colon-free strings and whose parent_span_id is either absent or a
non-empty colon-free string, from_header (to_header ctx) = ctx; in
particular a context with no parent parses back with an absent (not
empty-string) parent. -/
theorem spanContext_header_roundtrip (c : SpanContext)
    (htne : c.trace_id ≠ "") (hsne : c.span_id ≠ "")
    (ht : (':' : Char) ∉ c.trace_id.data) (hs : (':' : Char) ∉ c.span_id.data)
    (hp : c.parent_span_id = none ∨
      ∃ q, c.parent_span_id = some q ∧ q ≠ "" ∧ (':' : Char) ∉ q.data) :
    SpanContext.from_header (SpanContext.to_header c) = some c := by
  obtain ⟨t, s, pp⟩ := c
  simp only at ht hs hp
  rcases hp with hnone | ⟨q, hq, hqne, hqc⟩
  · subst hnone
    unfold SpanContext.to_header SpanContext.from_header
    simp only [Option.getD_none]
    rw [pySplitStr_header t s "" ht hs (by decide)]
    simp
  · subst hq
    unfold SpanContext.to_header SpanContext.from_header
    simp only [Option.getD_some]
    rw [pySplitStr_header t s q ht hs hqc]
    simp [hqne]

/-- Witness for claim C3: the round trip at the spec scenario context, and
at a context with no parent. -/
theorem spanContext_header_roundtrip_witness :
    SpanContext.from_header (SpanContext.to_header ⟨"t1", "s1", some "p1"⟩)
        = some ⟨"t1", "s1", some "p1"⟩ ∧
    SpanContext.from_header (SpanContext.to_header ⟨"t1", "s1", none⟩)
        = some ⟨"t1", "s1", none⟩ :=
  ⟨spanContext_header_roundtrip ⟨"t1", "s1", some "p1"⟩ (by decide) (by decide)
      (by decide) (by decide) (Or.inr ⟨"p1", rfl, by decide, by decide⟩),
    spanContext_header_roundtrip ⟨"t1", "s1", none⟩ (by decide) (by decide)
      (by decide) (by decide) (Or.inl rfl)⟩

/-- Counterexample to claim C3 as stated: the trace id "a:b" and span id
"s" are non-empty, yet the round trip re-splits on the embedded colon and
does not return the original context. -/
theorem spanContext_header_roundtrip_counterexample :
    ("a:b" : String) ≠ "" ∧ ("s" : String) ≠ "" ∧
    SpanContext.from_header (SpanContext.to_header ⟨"a:b", "s", none⟩) ≠
      some ⟨"a:b", "s", none⟩ := by decide

/-- Claim C6: parsing a header with fewer than two colon-separated segments
(no colon at all) is a caller-visible error (the IndexError is modelled by
the none result), while a header with exactly two segments parses
successfully into a context with no parent. -/
theorem from_header_segment_arity (h a b : String)
    (hno : (':' : Char) ∉ h.data)
    (ha : (':' : Char) ∉ a.data) (hb : (':' : Char) ∉ b.data) :
    SpanContext.from_header h = none ∧
    SpanContext.from_header (a ++ ":" ++ b) = some ⟨a, b, none⟩ := by
  constructor
  · unfold SpanContext.from_header
    rw [pySplitStr_single h hno]
  · unfold SpanContext.from_header
    rw [pySplitStr_pair a b ha hb]

/-- Witness for claim C6: the colon-free header "abc" fails to parse, and
the two-segment header "t:s" parses with no parent. -/
theorem from_header_segment_arity_witness :
    SpanContext.from_header "abc" = none ∧
    SpanContext.from_header ("t" ++ ":" ++ "s") = some ⟨"t", "s", none⟩ :=
  from_header_segment_arity "abc" "t" "s" (by decide) (by decide) (by decide)

/-- Model of a Python dict update `m[k] = v` on an insertion-ordered
association list: an existing key keeps its position and gets the new
value, a new key is appended. -/
def dictSet {α : Type} (m : List (String × α)) (k : String) (v : α) :
    List (String × α) :=
  match m with
  | [] => [(k, v)]
  | (k1, v1) :: rest =>
    if k1 = k then (k1, v) :: rest else (k1, v1) :: dictSet rest k v

/-- Model of Python `int(q)` on a rational: truncation toward zero. -/
def pyInt (q : ℚ) : ℤ :=
  if q < 0 then ⌈q⌉ else ⌊q⌋

/-- Model of Python list indexing `xs[i]` with an integer index: a negative
index counts from the end of the list; the default 0 stands for the
IndexError raised on an out-of-range index. -/
def pyIndex (xs : List ℚ) (i : ℤ) : ℚ :=
  if i < 0 then xs.getD (xs.length - i.natAbs) 0 else xs.getD i.toNat 0

/-- Embedding of `Histogram.get_percentile` (observability/metrics.py):
observations as the recorded list of rationals; Python `sorted` modelled by
stable insertion sort; `idx = int(len * p / 100)`, answer
`sorted_values[min(idx, len - 1)]`. -/
def Histogram.get_percentile (values : List ℚ) (p : ℚ) : ℚ :=
  if values = [] then 0
  else
    let sorted_values := values.insertionSort (· ≤ ·)
    let idx : ℤ := pyInt ((values.length : ℚ) * p / 100)
    pyIndex sorted_values (min idx ((values.length : ℤ) - 1))

/-- Embedding of `Timer` state (observability/metrics.py): the underlying
histogram's observation list and the transient start timestamp. -/
structure TimerState where
  values : List ℚ
  start_time : Option ℚ := none
deriving DecidableEq

/-- Embedding of `Timer.start`: records the current time, overwriting any
in-flight start. -/
def Timer.start (s : TimerState) (now : ℚ) : TimerState :=
  { s with start_time := some now }

/-- Embedding of `Timer.stop`: with no in-flight start it raises
(`RuntimeError("Timer was not started")`, modelled by the error result,
which also leaves no new observation); otherwise it records the duration
into the histogram and clears the start. -/
def Timer.stop (s : TimerState) (now : ℚ) : Except String (ℚ × TimerState) :=
  match s.start_time with
  | none => Except.error "Timer was not started"
  | some t0 =>
      Except.ok (now - t0,
        { values := s.values ++ [now - t0], start_time := none })

/-- Embedding of `Timer.time` run on a block: `start()` on entry, the body
runs (raising iff `bodyRaises`), and the `finally` clause calls `stop()` on
either exit path; the returned flag is whether an exception propagates to
the caller. -/
def Timer.timeRun (s : TimerState) (t1 t2 : ℚ) (bodyRaises : Bool) :
    TimerState × Bool :=
  let s1 := Timer.start s t1
  match Timer.stop s1 t2 with
  | Except.ok r => (r.2, bodyRaises)
  | Except.error _ => (s1, true)

/-- Embedding of `Counter` state (observability/metrics.py): the running
value and the append-only history of (value, timestamp) samples. -/
structure CounterState where
  value : ℤ
  history : List (ℤ × ℚ)
deriving DecidableEq

/-- Embedding of `Counter.inc`: adds the amount and appends a history
sample carrying the new running value. -/
def Counter.inc (s : CounterState) (amount : ℤ) (now : ℚ) : CounterState :=
  { value := s.value + amount,
    history := s.history ++ [(s.value + amount, now)] }

/-- Embedding of `Counter.get`. -/
def Counter.get (s : CounterState) : ℤ :=
  s.value

/-- Embedding of `Counter.reset`: zeroes the value; the history list is not
touched. -/
def Counter.reset (s : CounterState) : CounterState :=
  { s with value := 0 }

/-- The fields of `Counter.to_dict` that claims refer to: the exported
current value and the exported history samples. -/
structure CounterDict where
  value : ℤ
  history : List (ℤ × ℚ)
deriving DecidableEq

/-- Embedding of `Counter.to_dict`. -/
def Counter.to_dict (s : CounterState) : CounterDict :=
  { value := s.value, history := s.history }

theorem Histogram.get_percentile_eq_sorted_getD (values : List ℚ) (p : ℚ)
    (hne : values ≠ []) (h0 : 0 ≤ p) :
    Histogram.get_percentile values p =
      (values.insertionSort (· ≤ ·)).getD
        (min (Nat.floor ((values.length : ℚ) * p / 100)) (values.length - 1))
        0 := by
  have hN : 1 ≤ values.length := List.length_pos.mpr hne
  have hq : 0 ≤ (values.length : ℚ) * p / 100 := by positivity
  have hfloor : 0 ≤ ⌊(values.length : ℚ) * p / 100⌋ := Int.floor_nonneg.mpr hq
  have htoNat := Int.floor_toNat ((values.length : ℚ) * p / 100)
  have hNat :
      (min ⌊(values.length : ℚ) * p / 100⌋
        ((values.length : ℤ) - 1)).toNat =
      min (Nat.floor ((values.length : ℚ) * p / 100)) (values.length - 1) := by
    rcases le_total ⌊(values.length : ℚ) * p / 100⌋ ((values.length : ℤ) - 1)
        with h | h
    · rw [min_eq_left h, min_eq_left (by omega)]
      omega
    · rw [min_eq_right h, min_eq_right (by omega)]
      omega
  have hminpos : 0 ≤ min ⌊(values.length : ℚ) * p / 100⌋
      ((values.length : ℤ) - 1) := by
    apply le_min hfloor
    omega
  simp only [Histogram.get_percentile, if_neg hne, pyInt, if_neg (not_lt.mpr hq),
    pyIndex, if_neg (not_lt.mpr hminpos)]
  rw [hNat]

/-- Claim C2: for a histogram with at least one observation and p between 0
and 100, get_percentile selects, from the ascending sort of the
observations, the element at index floor(N * p / 100) clamped to
[0, N - 1] (nearest rank, no interpolation); get_percentile 100 is the
maximum observation. -/
theorem histogram_percentile_nearest_rank (values : List ℚ) (p : ℚ)
    (hne : values ≠ []) (h0 : 0 ≤ p) (h100 : p ≤ 100) :
    Histogram.get_percentile values p =
      (values.insertionSort (· ≤ ·)).getD
        (min (Nat.floor ((values.length : ℚ) * p / 100)) (values.length - 1))
        0 ∧
    Histogram.get_percentile values 100 ∈ values ∧
    ∀ x ∈ values, x ≤ Histogram.get_percentile values 100 := by
  have hN : 1 ≤ values.length := List.length_pos.mpr hne
  have hlen : (values.insertionSort (· ≤ ·)).length = values.length :=
    List.length_insertionSort _ _
  have harg : (values.length : ℚ) * 100 / 100 = (values.length : ℚ) := by
    field_simp
  have hidx :
      min (Nat.floor ((values.length : ℚ) * 100 / 100)) (values.length - 1)
        = values.length - 1 := by
    rw [harg, Nat.floor_natCast]
    omega
  have hlt : values.length - 1 < (values.insertionSort (· ≤ ·)).length := by
    omega
  have hgetD : Histogram.get_percentile values 100 =
      (values.insertionSort (· ≤ ·))[values.length - 1] := by
    rw [Histogram.get_percentile_eq_sorted_getD values 100 hne (by norm_num),
      hidx, List.getD_eq_getElem _ _ hlt]
  refine ⟨Histogram.get_percentile_eq_sorted_getD values p hne h0, ?_, ?_⟩
  · rw [hgetD]
    exact (List.perm_insertionSort (· ≤ ·) values).mem_iff.mp
      (List.getElem_mem hlt)
  · intro x hx
    have hxs : x ∈ values.insertionSort (· ≤ ·) :=
      (List.perm_insertionSort (· ≤ ·) values).mem_iff.mpr hx
    obtain ⟨i, hi, hxe⟩ := List.mem_iff_getElem.mp hxs
    have hsort := List.sorted_insertionSort (· ≤ ·) values
    have hrel := hsort.rel_get_of_le
      (a := ⟨i, hi⟩) (b := ⟨values.length - 1, hlt⟩)
      (by simp only [Fin.mk_le_mk]; omega)
    rw [hgetD, ← hxe]
    simpa [List.get_eq_getElem] using hrel

/-- The spec scenario observation set: the integers 0 to 99 as rationals. -/
def obs99 : List ℚ :=
  List.map (fun n : ℕ => (n : ℚ)) (List.range 100)

/-- Witness for claim C2: with observations 0..99, the 50th percentile is
50 (inside [45, 55]) and the 100th percentile is the maximum observation. -/
theorem histogram_percentile_nearest_rank_witness :
    (45 : ℚ) ≤ Histogram.get_percentile obs99 50 ∧
    Histogram.get_percentile obs99 50 ≤ 55 ∧
    Histogram.get_percentile obs99 100 ∈ obs99 ∧
    ∀ x ∈ obs99, x ≤ Histogram.get_percentile obs99 100 := by
  have hne : obs99 ≠ [] := by simp [obs99]
  have h := histogram_percentile_nearest_rank obs99 50 hne (by norm_num)
    (by norm_num)
  have hsorted : List.insertionSort (· ≤ ·) obs99 = obs99 := by
    apply List.Sorted.insertionSort_eq
    rw [obs99]
    simp only [List.Sorted, List.pairwise_map]
    exact (List.pairwise_lt_range 100).imp
      (fun {a b} hab => by exact_mod_cast hab.le)
  have hlen : obs99.length = 100 := by
    rw [obs99, List.length_map, List.length_range]
  have hfifty : Histogram.get_percentile obs99 50 = 50 := by
    rw [h.1, hsorted, hlen]
    have harg : ((100 : ℕ) : ℚ) * 50 / 100 = ((50 : ℕ) : ℚ) := by norm_num
    have hmin : min (Nat.floor (((100 : ℕ) : ℚ) * 50 / 100)) (100 - 1) = 50 := by
      rw [harg, Nat.floor_natCast]
      omega
    rw [hmin]
    have h50 : (50 : ℕ) < obs99.length := by omega
    rw [List.getD_eq_getElem _ _ h50]
    simp only [obs99, List.getElem_map, List.getElem_range]
    norm_num
  exact ⟨by rw [hfifty]; norm_num, by rw [hfifty]; norm_num, h.2.1, h.2.2⟩

/-- Claim C8: Timer.stop with no in-flight start raises an error (reported,
not silently ignored) and records no observation; Timer.time starts on
entry and records exactly one duration on every exit path, whether the
timed block returns normally or raises, and an exception from the block
still propagates. -/
theorem timer_stop_without_start_and_scoped_time (s : TimerState)
    (t1 t2 : ℚ) (bodyRaises : Bool) :
    (s.start_time = none →
      Timer.stop s t2 = Except.error "Timer was not started") ∧
    (Timer.timeRun s t1 t2 bodyRaises).1.values = s.values ++ [t2 - t1] ∧
    (Timer.timeRun s t1 t2 bodyRaises).1.start_time = none ∧
    (Timer.timeRun s t1 t2 bodyRaises).2 = bodyRaises := by
  refine ⟨fun hs => ?_, ?_, ?_, ?_⟩ <;>
    simp [Timer.stop, Timer.timeRun, Timer.start, *]

/-- Witness for claim C8: a never-started timer's stop errors, and a timed
block from time 3 to time 10 records the single duration 7 whether or not
the block raises. -/
theorem timer_stop_without_start_and_scoped_time_witness :
    Timer.stop ⟨[], none⟩ 10 = Except.error "Timer was not started" ∧
    (Timer.timeRun ⟨[], none⟩ 3 10 false).1.values = [7] ∧
    (Timer.timeRun ⟨[], none⟩ 3 10 true).1.values = [7] ∧
    (Timer.timeRun ⟨[], none⟩ 3 10 true).2 = true := by
  refine ⟨(timer_stop_without_start_and_scoped_time ⟨[], none⟩ 3 10 false).1 rfl,
    ?_, ?_, (timer_stop_without_start_and_scoped_time ⟨[], none⟩ 3 10 true).2.2.2⟩
  · have h := (timer_stop_without_start_and_scoped_time ⟨[], none⟩ 3 10 false).2.1
    rw [h]; norm_num
  · have h := (timer_stop_without_start_and_scoped_time ⟨[], none⟩ 3 10 true).2.1
    rw [h]; norm_num

/-- Embedding of `SpanStatus` (observability/tracer.py). -/
inductive SpanStatus where
  | unset
  | ok
  | error
deriving DecidableEq

/-- Embedding of `Span` (observability/tracer.py); attribute values are
modelled as strings, timestamps as rationals. -/
structure Span where
  name : String
  context : SpanContext
  start_time : ℚ
  end_time : Option ℚ := none
  status : SpanStatus := SpanStatus.unset
  status_message : Option String := none
  attributes : List (String × String) := []
deriving DecidableEq

/-- Model of `Tracer._generate_id` (`uuid.uuid4().hex[:16]`): an injective
supply of identifier strings indexed by how many ids were drawn so far. -/
def genId (n : ℕ) : String :=
  String.mk (List.replicate (n + 1) 'i')

theorem genId_injective : Function.Injective genId := by
  intro a b h
  have hdata : (genId a).data = (genId b).data := by rw [h]
  have hlen := congrArg List.length hdata
  simpa [genId] using hlen

/-- Embedding of the mutable tracer state (observability/tracer.py): the
execution context's active-span stack (list head = top of stack, the end
of the Python list), the trace table in insertion order, the completed
list, the configured service name, and the id-generation supply. -/
structure TracerState where
  service_name : String
  stack : List Span
  traces : List (String × List Span)
  completed : List Span
  supply : ℕ

/-- Appending a span to its trace bucket, creating the bucket on first
use (`self._traces.setdefault`-style logic in `start_span`). -/
def tracesAdd (traces : List (String × List Span)) (tid : String)
    (sp : Span) : List (String × List Span) :=
  match traces with
  | [] => [(tid, [sp])]
  | (k, l) :: rest =>
    if k = tid then (k, l ++ [sp]) :: rest
    else (k, l) :: tracesAdd rest tid sp

/-- Embedding of `Tracer.start_span`: resolve the parent (explicit
argument, else top of the active-span stack), derive the child context
(inherit the parent's trace id, or mint a fresh trace id when parentless),
stamp the service-name attribute, register the span in the trace table and
push it on the stack. -/
def Tracer.start_span (st : TracerState) (name : String)
    (parent : Option Span) (attributes : List (String × String)) (now : ℚ) :
    Span × TracerState :=
  let parentRes : Option Span :=
    match parent with
    | some p => some p
    | none => st.stack.head?
  let ctxSupply : SpanContext × ℕ :=
    match parentRes with
    | some p =>
      (⟨p.context.trace_id, genId st.supply, some p.context.span_id⟩,
        st.supply + 1)
    | none => (⟨genId st.supply, genId (st.supply + 1), none⟩, st.supply + 2)
  let sp : Span :=
    { name := name
      context := ctxSupply.1
      start_time := now
      attributes := dictSet attributes "service.name" st.service_name }
  (sp,
    { st with
        supply := ctxSupply.2
        traces := tracesAdd st.traces ctxSupply.1.trace_id sp
        stack := sp :: st.stack })

/-- Embedding of `Span.end`: `self.end_time = end_time or time.time()` —
the passed timestamp is used unless it is absent or falsy (0), in which
case the current time is; no already-ended check exists. -/
def Span.endSpan (sp : Span) (now : ℚ) (end_time : Option ℚ) : Span :=
  { sp with
      end_time := some
        (match end_time with
         | some t => if t = 0 then now else t
         | none => now) }

/-- Embedding of `Tracer._on_span_end`: pop the active-span stack (no-op
when empty) and append the span to the completed list. -/
def Tracer.on_span_end (st : TracerState) (sp : Span) : TracerState :=
  { st with stack := st.stack.tail, completed := st.completed ++ [sp] }

/-- Embedding of `Span.end` together with its `_tracer._on_span_end(self)`
notification. -/
def Span.endWithTracer (sp : Span) (st : TracerState) (now : ℚ)
    (end_time : Option ℚ) : Span × TracerState :=
  let sp2 := Span.endSpan sp now end_time
  (sp2, Tracer.on_span_end st sp2)

/-- Claim C9: Counter.reset zeroes the current value but leaves the
recorded history untouched: after any sequence of increments followed by a
reset, get returns 0 while the exported to_dict history still holds every
sample appended before the reset. -/
theorem counter_reset_keeps_history (s0 : CounterState)
    (incs : List (ℤ × ℚ)) :
    Counter.get
        (Counter.reset
          (incs.foldl (fun acc av => Counter.inc acc av.1 av.2) s0)) = 0 ∧
    (Counter.to_dict
        (Counter.reset
          (incs.foldl (fun acc av => Counter.inc acc av.1 av.2) s0))).history =
      (Counter.to_dict
        (incs.foldl (fun acc av => Counter.inc acc av.1 av.2) s0)).history :=
  ⟨rfl, rfl⟩

/-- Claim C1: start_span resolves the parent as the explicit argument if
given, else the top of the ambient active-span stack, else none; when a
parent exists the new context inherits the parent's trace id and sets
parent_span_id to the parent's span id; when no parent exists the new span
gets a freshly generated trace id (distinct from every id the generator
produced earlier) and no parent_span_id. -/
theorem start_span_parent_resolution (st : TracerState) (name : String)
    (parent : Option Span) (attrs : List (String × String)) (now : ℚ) :
    (∀ p, parent = some p →
      (Tracer.start_span st name parent attrs now).1.context.trace_id
          = p.context.trace_id ∧
      (Tracer.start_span st name parent attrs now).1.context.parent_span_id
          = some p.context.span_id) ∧
    (parent = none → ∀ p, st.stack.head? = some p →
      (Tracer.start_span st name parent attrs now).1.context.trace_id
          = p.context.trace_id ∧
      (Tracer.start_span st name parent attrs now).1.context.parent_span_id
          = some p.context.span_id) ∧
    (parent = none → st.stack.head? = none →
      (Tracer.start_span st name parent attrs now).1.context.parent_span_id
          = none ∧
      (Tracer.start_span st name parent attrs now).1.context.trace_id
          = genId st.supply ∧
      ∀ m, m < st.supply →
        (Tracer.start_span st name parent attrs now).1.context.trace_id
          ≠ genId m) := by
  refine ⟨?_, ?_, ?_⟩
  · rintro p rfl
    exact ⟨rfl, rfl⟩
  · rintro rfl p hp
    simp [Tracer.start_span, hp]
  · rintro rfl hp
    refine ⟨?_, ?_, ?_⟩
    · simp [Tracer.start_span, hp]
    · simp [Tracer.start_span, hp]
    · intro m hm heq
      have : st.supply = m := by
        apply genId_injective
        simpa [Tracer.start_span, hp] using heq
      omega

/-- Witness for claim C1: with an empty stack and no explicit parent the
root span starts a new trace with no parent id; while it is on the stack,
a second start_span call links the child to it. -/
theorem start_span_parent_resolution_witness :
    ((Tracer.start_span ⟨"svc", [], [], [], 0⟩ "parent" none [] 0).1.context.parent_span_id
        = none) ∧
    ((Tracer.start_span ⟨"svc", [], [], [], 0⟩ "parent" none [] 0).1.context.trace_id
        = genId 0) ∧
    (∀ p, (Tracer.start_span ⟨"svc", [], [], [], 0⟩ "parent" none [] 0).2.stack.head?
        = some p →
      (Tracer.start_span
          (Tracer.start_span ⟨"svc", [], [], [], 0⟩ "parent" none [] 0).2
          "child" none [] 1).1.context.trace_id = p.context.trace_id ∧
      (Tracer.start_span
          (Tracer.start_span ⟨"svc", [], [], [], 0⟩ "parent" none [] 0).2
          "child" none [] 1).1.context.parent_span_id
        = some p.context.span_id) := by
  refine ⟨?_, ?_, ?_⟩
  · exact (start_span_parent_resolution ⟨"svc", [], [], [], 0⟩ "parent" none [] 0).2.2
      rfl rfl |>.1
  · exact (start_span_parent_resolution ⟨"svc", [], [], [], 0⟩ "parent" none [] 0).2.2
      rfl rfl |>.2.1
  · intro p hp
    exact (start_span_parent_resolution
      (Tracer.start_span ⟨"svc", [], [], [], 0⟩ "parent" none [] 0).2
      "child" none [] 1).2.1 rfl p hp

/-- Counterexample to claim C5 as stated: a span already ended at time 1
is ended again at time 2 with no error signalled, and its end time
changes. -/
theorem span_end_twice_counterexample :
    (Span.endSpan
        ⟨"work", ⟨"t", "s", none⟩, 0, some 1, SpanStatus.unset, none, []⟩
        2 none).end_time = some 2 ∧
    ((2 : ℚ)) ≠ 1 := by
  constructor
  · rfl
  · norm_num

/-- Claim C5 (amended): ending an already-ended span does not fail loudly:
Span.end always succeeds, unconditionally overwrites the stored end time
with the newly resolved timestamp, and re-notifies the tracer, which pops
another stack frame and appends the span to the completed list again. -/
theorem span_end_overwrites (sp : Span) (st : TracerState) (now : ℚ)
    (e : ℚ) (he : sp.end_time = some e) :
    (Span.endWithTracer sp st now none).1.end_time = some now ∧
    (Span.endWithTracer sp st now none).2.completed
        = st.completed ++ [(Span.endWithTracer sp st now none).1] ∧
    (Span.endWithTracer sp st now none).2.stack = st.stack.tail := by
  refine ⟨rfl, rfl, rfl⟩

/-- Witness for claim C5: the span ended at time 1 is ended again at time
2; the end time becomes 2 and the completed list receives the span a
second time. -/
theorem span_end_overwrites_witness :
    (Span.endWithTracer
        ⟨"work", ⟨"t", "s", none⟩, 0, some 1, SpanStatus.unset, none, []⟩
        ⟨"svc", [], [], [], 0⟩ 2 none).1.end_time = some 2 ∧
    (Span.endWithTracer
        ⟨"work", ⟨"t", "s", none⟩, 0, some 1, SpanStatus.unset, none, []⟩
        ⟨"svc", [], [], [], 0⟩ 2 none).2.completed
      = [(Span.endWithTracer
          ⟨"work", ⟨"t", "s", none⟩, 0, some 1, SpanStatus.unset, none, []⟩
          ⟨"svc", [], [], [], 0⟩ 2 none).1] := by
  have h := span_end_overwrites
    ⟨"work", ⟨"t", "s", none⟩, 0, some 1, SpanStatus.unset, none, []⟩
    ⟨"svc", [], [], [], 0⟩ 2 1 rfl
  exact ⟨h.1, h.2.1⟩

/-- Embedding of the thread-local `LogContext` slots (observability/
logger.py): correlation id, trace id, span id, and the extra map. -/
structure LogCtx where
  correlation_id : Option String := none
  trace_id : Option String := none
  span_id : Option String := none
  extra : List (String × String) := []
deriving DecidableEq

/-- Python truthiness of an optional string: `None` and the empty string
are falsy. -/
def pyTruthy : Option String → Bool
  | none => false
  | some s => if s = "" then false else true

/-- Embedding of `LogContext.set_extra`. -/
def LogContext.set_extra (ctx : LogCtx) (k v : String) : LogCtx :=
  { ctx with extra := dictSet ctx.extra k v }

/-- Embedding of the entry half of `LogContext.scope`: each override is
applied only when truthy (`if correlation_id: ...`), then the keyword
extras are written one by one. -/
def LogContext.scopeEnter (ctx : LogCtx) (cid tid sid : Option String)
    (extras : List (String × String)) : LogCtx :=
  let c1 := if pyTruthy cid then { ctx with correlation_id := cid } else ctx
  let c2 := if pyTruthy tid then { c1 with trace_id := tid } else c1
  let c3 := if pyTruthy sid then { c2 with span_id := sid } else c2
  extras.foldl (fun acc kv => LogContext.set_extra acc kv.1 kv.2) c3

/-- Embedding of the `finally` half of `LogContext.scope`: each captured id
is re-set when truthy and forced to absent otherwise; the captured copy of
the extra map is written back wholesale.  The result depends only on the
captured entry values, never on what the scoped body did. -/
def LogContext.scopeRestore (old : LogCtx) : LogCtx :=
  { correlation_id :=
      if pyTruthy old.correlation_id then old.correlation_id else none
    trace_id := if pyTruthy old.trace_id then old.trace_id else none
    span_id := if pyTruthy old.span_id then old.span_id else none
    extra := old.extra }

/-- Embedding of a full `LogContext.scope` invocation around a body that
may itself mutate the context and may raise (the boolean); the `finally`
restoration runs on both exit paths and the body's fault, if any,
propagates. -/
def LogContext.scopeRun (ctx : LogCtx) (cid tid sid : Option String)
    (extras : List (String × String)) (body : LogCtx → LogCtx × Bool) :
    LogCtx × Bool :=
  let s1 := LogContext.scopeEnter ctx cid tid sid extras
  let r := body s1
  (LogContext.scopeRestore ctx, r.2)

theorem pyTruthy_restore_slot (o : Option String) (h : o ≠ some "") :
    (if pyTruthy o then o else none) = o := by
  cases o with
  | none => rfl
  | some s =>
    have hs : ¬ s = "" := fun hs => h (by rw [hs])
    simp [pyTruthy, hs]

/-- Counterexample to claim C4 as stated: a correlation id that is present
but equal to the empty string on entry is restored as absent, not as the
empty string, because the restoration tests Python truthiness. -/
theorem logcontext_scope_restore_counterexample :
    (LogContext.scopeRun ⟨some "", none, none, []⟩ none none none []
        (fun s => (s, false))).1 ≠ ⟨some "", none, none, []⟩ := by
  decide

/-- Claim C4 (amended): on every exit path, normal or raising, the scope
restores every slot to its entry value — exactly, provided each of the
three id slots on entry is absent or a non-empty string (the restoration
goes through Python truthiness, so a present empty-string id degrades to
absent); the extra map is restored exactly unconditionally, and since the
restored state equals the entry state for every body, leaving an inner
scope never clobbers what an outer scope established. -/
theorem logcontext_scope_restores (ctx : LogCtx)
    (cid tid sid : Option String) (extras : List (String × String))
    (body : LogCtx → LogCtx × Bool)
    (hc : ctx.correlation_id ≠ some "") (ht : ctx.trace_id ≠ some "")
    (hs : ctx.span_id ≠ some "") :
    (LogContext.scopeRun ctx cid tid sid extras body).1 = ctx ∧
    (LogContext.scopeRun ctx cid tid sid extras body).2
      = (body (LogContext.scopeEnter ctx cid tid sid extras)).2 := by
  constructor
  · show LogContext.scopeRestore ctx = ctx
    unfold LogContext.scopeRestore
    rw [pyTruthy_restore_slot _ hc, pyTruthy_restore_slot _ ht,
      pyTruthy_restore_slot _ hs]
  · rfl

/-- Witness for claim C4: with correlation id "outer" set, a scope
overriding it to "inner" carries "inner" inside, and after the scope exits
via a raising body the context again carries exactly "outer". -/
theorem logcontext_scope_restores_witness :
    (LogContext.scopeEnter ⟨some "outer", none, none, []⟩ (some "inner")
        none none []).correlation_id = some "inner" ∧
    (LogContext.scopeRun ⟨some "outer", none, none, []⟩ (some "inner")
        none none [] (fun s => (s, true))).1
      = ⟨some "outer", none, none, []⟩ := by
  refine ⟨by decide, ?_⟩
  exact (logcontext_scope_restores ⟨some "outer", none, none, []⟩
    (some "inner") none none [] (fun s => (s, true))
    (by decide) (by decide) (by decide)).1

/-- Embedding of `LogEntry` (observability/logger.py), reduced to the
fields the claims touch; the level is its numeric value. -/
structure LogEntry where
  level : ℕ
  message : String
  correlation_id : Option String := none
  trace_id : Option String := none
  span_id : Option String := none
  extra : List (String × String) := []
deriving DecidableEq

/-- Numeric log levels from `LogLevel`. -/
def LogLevel.DEBUG : ℕ := 10

/-- Numeric value of `LogLevel.INFO`. -/
def LogLevel.INFO : ℕ := 20

/-- Numeric value of `LogLevel.WARN`. -/
def LogLevel.WARN : ℕ := 30

/-- Numeric value of `LogLevel.ERROR`. -/
def LogLevel.ERROR : ℕ := 40

/-- Numeric value of `LogLevel.CRITICAL`. -/
def LogLevel.CRITICAL : ℕ := 50

/-- Embedding of `LogHandler.should_log`: the entry's level must reach the
handler's own configured minimum. -/
def LogHandler.should_log (selfLevel level : ℕ) : Bool :=
  decide (selfLevel ≤ level)

/-- Embedding of `ConsoleHandler.emit`, abstracting the rendered line by
the entry it prints: filtered entries produce no output. -/
def ConsoleHandler.emit (selfLevel : ℕ) (e : LogEntry) : Option LogEntry :=
  if LogHandler.should_log selfLevel e.level then some e else none

/-- Embedding of `JsonHandler.emit`, abstracting the JSON line by the
entry it serializes. -/
def JsonHandler.emit (selfLevel : ℕ) (e : LogEntry) : Option LogEntry :=
  if LogHandler.should_log selfLevel e.level then some e else none

/-- Embedding of `FileHandler.emit`, abstracting the appended line by the
entry it writes. -/
def FileHandler.emit (selfLevel : ℕ) (e : LogEntry) : Option LogEntry :=
  if LogHandler.should_log selfLevel e.level then some e else none

/-- Model of Python `l[-k:]`: the last k elements, except that `l[-0:]` is
the whole list. -/
def pySliceLast {α : Type} (k : ℕ) (l : List α) : List α :=
  if k = 0 then l else l.drop (l.length - k)

/-- Embedding of `MemoryHandler.emit`: filter on the handler's own level,
append, then trim to the newest max_entries entries when over capacity. -/
def MemoryHandler.emit (selfLevel maxEntries : ℕ) (entries : List LogEntry)
    (e : LogEntry) : List LogEntry :=
  if LogHandler.should_log selfLevel e.level then
    let es := entries ++ [e]
    if maxEntries < es.length then pySliceLast maxEntries es else es
  else entries

/-- Embedding of `ObservabilityLogger._get_effective_level`: the logger's
own level if set, else the process-wide level. -/
def effectiveLevel (ownLevel : Option ℕ) (globalLevel : ℕ) : ℕ :=
  ownLevel.getD globalLevel

/-- The per-handler dispatch loop of `ObservabilityLogger._log`: each
handler's emit is tried; a raising handler (modelled by an error result)
is caught, a diagnostic line is appended to the stderr stream, and the
loop continues with the remaining handlers.  The result pairs the writes
of the successful handlers, in order, with the stderr diagnostics; no
error escapes. -/
def emitToHandlers (e : LogEntry) :
    List (LogEntry → Except String (List LogEntry)) →
      List LogEntry × List String
  | [] => ([], [])
  | h :: rest =>
    let tail := emitToHandlers e rest
    match h e with
    | Except.ok written => (written ++ tail.1, tail.2)
    | Except.error msg =>
        (tail.1, ("Error in log handler: " ++ msg) :: tail.2)

/-- The default sink used by `_log` when no handlers are attached: a
console handler at DEBUG level. -/
def defaultConsoleSink (e : LogEntry) : Except String (List LogEntry) :=
  Except.ok (ConsoleHandler.emit LogLevel.DEBUG e).toList

/-- Embedding of `ObservabilityLogger._log`: drop the entry below the
effective level, otherwise dispatch it to the attached handlers (or to the
default console sink when none are attached). -/
def ObservabilityLogger.logRun (ownLevel : Option ℕ) (globalLevel : ℕ)
    (handlers : List (LogEntry → Except String (List LogEntry)))
    (e : LogEntry) : List LogEntry × List String :=
  if effectiveLevel ownLevel globalLevel ≤ e.level then
    emitToHandlers e
      (if handlers.isEmpty then [defaultConsoleSink] else handlers)
  else ([], [])

theorem emitToHandlers_append (e : LogEntry)
    (xs ys : List (LogEntry → Except String (List LogEntry))) :
    emitToHandlers e (xs ++ ys)
      = ((emitToHandlers e xs).1 ++ (emitToHandlers e ys).1,
         (emitToHandlers e xs).2 ++ (emitToHandlers e ys).2) := by
  induction xs with
  | nil => simp [emitToHandlers]
  | cons h rest ih =>
    simp only [List.cons_append, emitToHandlers]
    cases h e <;> simp [ih]

/-- Claim C7: when a log call passes the effective-level filter and one of
the attached handlers raises, the fault is caught, a diagnostic line is
reported to stderr, every remaining handler still receives the entry (its
writes appear in full), and the call returns normally — no fault reaches
the logging caller. -/
theorem logger_sink_failure_isolated (ownLevel : Option ℕ)
    (globalLevel : ℕ)
    (pre post : List (LogEntry → Except String (List LogEntry)))
    (bad : LogEntry → Except String (List LogEntry)) (e : LogEntry)
    (msg : String)
    (hlv : effectiveLevel ownLevel globalLevel ≤ e.level)
    (hbad : bad e = Except.error msg) :
    ObservabilityLogger.logRun ownLevel globalLevel (pre ++ bad :: post) e
      = ((emitToHandlers e pre).1 ++ (emitToHandlers e post).1,
         (emitToHandlers e pre).2
           ++ ("Error in log handler: " ++ msg) :: (emitToHandlers e post).2)
    := by
  unfold ObservabilityLogger.logRun
  rw [if_pos hlv, if_neg (by simp), emitToHandlers_append]
  simp only [emitToHandlers, hbad]

/-- Witness for claim C7: three sinks, the middle one raising "boom": the
entry still reaches the first and third sinks, the failure is reported
once on stderr, and the call returns a plain value. -/
theorem logger_sink_failure_isolated_witness :
    ObservabilityLogger.logRun none 10
        [fun e => Except.ok [e], fun _ => Except.error "boom",
         fun e => Except.ok [e]]
        ⟨20, "hello", none, none, none, []⟩
      = ([⟨20, "hello", none, none, none, []⟩,
          ⟨20, "hello", none, none, none, []⟩],
         ["Error in log handler: boom"]) := by
  have h := logger_sink_failure_isolated none 10
    [fun e => Except.ok [e]] [fun e => Except.ok [e]]
    (fun _ => Except.error "boom") ⟨20, "hello", none, none, none, []⟩
    "boom" (by decide) rfl
  simpa [emitToHandlers] using h

/-- Claim C10: every handler applies its own minimum-level filter inside
emit: an entry below the handler's configured level is not stored by the
memory handler and produces no write from the console, JSON, or file
handlers, even when the logger's effective level permitted the entry to be
dispatched. -/
theorem handler_own_level_filter (ownLevel : Option ℕ)
    (globalLevel hLevel maxEntries : ℕ) (entries : List LogEntry)
    (e : LogEntry)
    (hdispatch : effectiveLevel ownLevel globalLevel ≤ e.level)
    (hbelow : e.level < hLevel) :
    MemoryHandler.emit hLevel maxEntries entries e = entries ∧
    ConsoleHandler.emit hLevel e = none ∧
    JsonHandler.emit hLevel e = none ∧
    FileHandler.emit hLevel e = none := by
  have hno : LogHandler.should_log hLevel e.level = false := by
    simp only [LogHandler.should_log, decide_eq_false_iff_not]
    omega
  refine ⟨?_, ?_, ?_, ?_⟩ <;>
    simp [MemoryHandler.emit, ConsoleHandler.emit, JsonHandler.emit,
      FileHandler.emit, hno]

/-- Witness for claim C10: the logger at global DEBUG level dispatches an
INFO entry, yet a WARN-level memory handler stores nothing and a
WARN-level console handler writes nothing. -/
theorem handler_own_level_filter_witness :
    MemoryHandler.emit LogLevel.WARN 10000
        [⟨50, "old", none, none, none, []⟩]
        ⟨20, "info entry", none, none, none, []⟩
      = [⟨50, "old", none, none, none, []⟩] ∧
    ConsoleHandler.emit LogLevel.WARN
        ⟨20, "info entry", none, none, none, []⟩ = none := by
  have h := handler_own_level_filter none LogLevel.DEBUG LogLevel.WARN
    10000 [⟨50, "old", none, none, none, []⟩]
    ⟨20, "info entry", none, none, none, []⟩ (by decide) (by decide)
  exact ⟨h.1, h.2.1⟩
